import Mathlib

/-!
Verification of the HTTP/1.1 server in `app/main.py` (irvifa/python-http-server).

Python strings are modelled as lists of Unicode codepoints (`Str`), Python
`bytes` as lists of numbers in 0..255 (`Bytes`).  The stdlib collaborators
(`gzip.compress`, the filesystem, the socket) are external to the core and are
modelled as parameters: the compressor as an arbitrary function on byte
sequences, the filesystem as a partial map from file name to contents.
-/

namespace HttpServer

/-- Python `str`: a sequence of Unicode codepoints. -/
abbrev Str := List Nat

/-- Python `bytes`: a sequence of numbers in 0..255. -/
abbrev Bytes := List Nat

/-- Embed a Lean string literal as a `Str` (its codepoints). -/
def S (s : String) : Str := s.toList.map Char.toNat

/-- The CRLF separator `\r\n`. -/
def crlf : Str := [13, 10]

/-- Whitespace characters for Python's `str.split()` / `str.strip()`
(ASCII subset: tab, LF, VT, FF, CR, space; the requests in scope are ASCII). -/
def isPySpace (c : Nat) : Prop := c = 9 ∨ c = 10 ∨ c = 11 ∨ c = 12 ∨ c = 13 ∨ c = 32

instance (c : Nat) : Decidable (isPySpace c) := by unfold isPySpace; infer_instance

/-- ASCII lower-casing of one codepoint (model of Python `str.lower` on the
ASCII header and token material used by the server). -/
def lowerChar (c : Nat) : Nat := if 65 ≤ c ∧ c ≤ 90 then c + 32 else c

/-- ASCII upper-casing of one codepoint (model of Python `str.upper`). -/
def upperChar (c : Nat) : Nat := if 97 ≤ c ∧ c ≤ 122 then c - 32 else c

/-- `s.lower()` on ASCII material. -/
def asciiLower (s : Str) : Str := s.map lowerChar

/-- `s.upper()` on ASCII material. -/
def asciiUpper (s : Str) : Str := s.map upperChar

/-- `s.strip()`: drop leading and trailing whitespace. -/
def pyStrip (s : Str) : Str :=
  ((s.dropWhile (fun c => decide (isPySpace c))).reverse.dropWhile
    (fun c => decide (isPySpace c))).reverse

/-- `s.rstrip('\n')`: drop trailing LF characters. -/
def pyRstripLF (s : Str) : Str :=
  (s.reverse.dropWhile (fun c => decide (c = 10))).reverse

/-- Worker for `splitOnSub`: scans the remaining input, `acc` holds the
current segment reversed.  The fuel argument (structurally decreasing, one
unit per consumed character) makes the function kernel-reducible; it is
called with fuel equal to the input length, which every branch preserves as
an upper bound, so the fuel-exhausted branch is never reached. -/
def splitOnSubGo (sep : Str) : Nat → Str → Str → List Str
  | _, [], acc => [acc.reverse]
  | 0, l, acc => [acc.reverse ++ l]
  | fuel + 1, c :: rest, acc =>
    if sep.isPrefixOf (c :: rest) then
      acc.reverse :: splitOnSubGo sep fuel (List.drop (sep.length - 1) rest) []
    else
      splitOnSubGo sep fuel rest (c :: acc)

/-- Python `s.split(sep)` for a non-empty separator. -/
def splitOnSub (sep s : Str) : List Str := splitOnSubGo sep s.length s []

/-- Worker for `splitFirstSub`. -/
def splitFirstSubGo (sep : Str) : Str → Str → Option (Str × Str)
  | [], _ => none
  | c :: rest, acc =>
    if sep.isPrefixOf (c :: rest) then
      some (acc.reverse, List.drop sep.length (c :: rest))
    else
      splitFirstSubGo sep rest (c :: acc)

/-- Split at the first occurrence of `sep` (Python `s.split(sep, 1)` when
`sep` occurs in `s`); `none` when `sep` does not occur (Python `sep in s`
being false). -/
def splitFirstSub (sep s : Str) : Option (Str × Str) := splitFirstSubGo sep s []

/-- Python `s.split(sep, 1)[-1]`: everything after the first occurrence of
`sep`, or `s` itself when `sep` does not occur. -/
def splitAfterFirst (sep s : Str) : Str :=
  match splitFirstSub sep s with
  | some (_, post) => post
  | none => s

/-- Python `sep.isPrefixOf`-style `s.startswith(p)`. -/
def pyStartswith (p s : Str) : Bool := p.isPrefixOf s

/-- Worker for `pySplitWs`. -/
def pySplitWsGo : Str → Str → List Str
  | [], acc => if acc = [] then [] else [acc.reverse]
  | c :: rest, acc =>
    if isPySpace c then
      if acc = [] then pySplitWsGo rest [] else acc.reverse :: pySplitWsGo rest []
    else
      pySplitWsGo rest (c :: acc)

/-- Python `s.split()` with no argument: split on runs of whitespace,
discarding empty pieces. -/
def pySplitWs (s : Str) : List Str := pySplitWsGo s []

/-- Python dict assignment `d[k] = v` on an insertion-ordered dict:
replace in place if the key exists, else append. -/
def pyDictSet : List (Str × Str) → Str → Str → List (Str × Str)
  | [], k, v => [(k, v)]
  | (k0, v0) :: rest, k, v =>
    if k0 = k then (k0, v) :: rest else (k0, v0) :: pyDictSet rest k v

/-- Python `d.get(k)` on an insertion-ordered dict. -/
def pyDictGet : List (Str × Str) → Str → Option Str
  | [], _ => none
  | (k0, v0) :: rest, k => if k0 = k then some v0 else pyDictGet rest k

/-- Worker for `natToStr`; the fuel (one unit per emitted digit, started at
`n` which bounds the digit count) keeps the recursion structural. -/
def natToStrGo : Nat → Nat → Str → Str
  | 0, n, acc => (48 + n % 10) :: acc
  | fuel + 1, n, acc =>
    if n < 10 then (48 + n) :: acc
    else natToStrGo fuel (n / 10) ((48 + n % 10) :: acc)

/-- Decimal rendering of a natural number (Python `str` on a nonnegative
`int`, `f`-string interpolation). -/
def natToStr (n : Nat) : Str := natToStrGo n n []

/-- A UTF-8 continuation byte. -/
def isCont (b : Nat) : Prop := 128 ≤ b ∧ b ≤ 191

instance (b : Nat) : Decidable (isCont b) := by unfold isCont; infer_instance

/-- Allowed second byte after a three-byte leader (CPython's strict UTF-8
decoder: rejects overlong forms and surrogates). -/
def cont2Ok (b b2 : Nat) : Prop :=
  if b = 224 then 160 ≤ b2 ∧ b2 ≤ 191
  else if b = 237 then 128 ≤ b2 ∧ b2 ≤ 159
  else isCont b2

instance (b b2 : Nat) : Decidable (cont2Ok b b2) := by unfold cont2Ok; infer_instance

/-- Allowed second byte after a four-byte leader. -/
def cont4Ok (b b2 : Nat) : Prop :=
  if b = 240 then 144 ≤ b2 ∧ b2 ≤ 191
  else if b = 244 then 128 ≤ b2 ∧ b2 ≤ 143
  else isCont b2

instance (b b2 : Nat) : Decidable (cont4Ok b b2) := by unfold cont4Ok; infer_instance

/-- Codepoint assembled from a two-byte UTF-8 sequence. -/
def cp2 (b b2 : Nat) : Nat := (b - 192) * 64 + (b2 - 128)

/-- Codepoint assembled from a three-byte UTF-8 sequence. -/
def cp3 (b b2 b3 : Nat) : Nat := (b - 224) * 4096 + (b2 - 128) * 64 + (b3 - 128)

/-- Codepoint assembled from a four-byte UTF-8 sequence. -/
def cp4 (b b2 b3 b4 : Nat) : Nat :=
  (b - 240) * 262144 + (b2 - 128) * 4096 + (b3 - 128) * 64 + (b4 - 128)

/-- Python runtime errors the server code can raise. -/
inductive PyError where
  | indexError
  | keyError
  | attributeError
  | unicodeDecodeError
deriving DecidableEq, Repr

/-- Strict UTF-8 decoding: Python `bytes.decode('utf-8')`, which raises
`UnicodeDecodeError` on any invalid sequence. -/
def utf8DecodeStrict : Bytes → Except PyError Str
  | [] => .ok []
  | b :: rest =>
    if b < 128 then (utf8DecodeStrict rest).map (fun s => b :: s)
    else if 194 ≤ b ∧ b ≤ 223 then
      match rest with
      | b2 :: rest2 =>
        if isCont b2 then (utf8DecodeStrict rest2).map (fun s => cp2 b b2 :: s)
        else .error .unicodeDecodeError
      | [] => .error .unicodeDecodeError
    else if 224 ≤ b ∧ b ≤ 239 then
      match rest with
      | b2 :: b3 :: rest3 =>
        if cont2Ok b b2 ∧ isCont b3 then
          (utf8DecodeStrict rest3).map (fun s => cp3 b b2 b3 :: s)
        else .error .unicodeDecodeError
      | _ => .error .unicodeDecodeError
    else if 240 ≤ b ∧ b ≤ 244 then
      match rest with
      | b2 :: b3 :: b4 :: rest4 =>
        if cont4Ok b b2 ∧ isCont b3 ∧ isCont b4 then
          (utf8DecodeStrict rest4).map (fun s => cp4 b b2 b3 b4 :: s)
        else .error .unicodeDecodeError
      | _ => .error .unicodeDecodeError
    else .error .unicodeDecodeError

/-- Worker for `utf8DecodeReplace`, the model of Python UTF-8 decoding with
`errors='replace'` as used inside `urllib.parse.unquote`: an invalid byte
yields U+FFFD and decoding resumes at the next byte (an approximation of
CPython's maximal-subpart substitution; the inputs in scope are valid
ASCII).  The fuel (one unit per consumed byte,
started at the input length) keeps the recursion structural, so the
fuel-exhausted branch is never reached. -/
def utf8DecodeReplaceGo : Nat → Bytes → Str
  | _, [] => []
  | 0, l => l.map (fun _ => 65533)
  | fuel + 1, b :: rest =>
    if b < 128 then b :: utf8DecodeReplaceGo fuel rest
    else if 194 ≤ b ∧ b ≤ 223 then
      match rest with
      | b2 :: rest2 =>
        if isCont b2 then cp2 b b2 :: utf8DecodeReplaceGo fuel rest2
        else 65533 :: utf8DecodeReplaceGo fuel (b2 :: rest2)
      | [] => [65533]
    else if 224 ≤ b ∧ b ≤ 239 then
      match rest with
      | b2 :: b3 :: rest3 =>
        if cont2Ok b b2 ∧ isCont b3 then cp3 b b2 b3 :: utf8DecodeReplaceGo fuel rest3
        else 65533 :: utf8DecodeReplaceGo fuel (b2 :: b3 :: rest3)
      | [b2] => 65533 :: utf8DecodeReplaceGo fuel [b2]
      | [] => [65533]
    else if 240 ≤ b ∧ b ≤ 244 then
      match rest with
      | b2 :: b3 :: b4 :: rest4 =>
        if cont4Ok b b2 ∧ isCont b3 ∧ isCont b4 then
          cp4 b b2 b3 b4 :: utf8DecodeReplaceGo fuel rest4
        else 65533 :: utf8DecodeReplaceGo fuel (b2 :: b3 :: b4 :: rest4)
      | [b2, b3] => 65533 :: utf8DecodeReplaceGo fuel [b2, b3]
      | [b2] => 65533 :: utf8DecodeReplaceGo fuel [b2]
      | [] => [65533]
    else 65533 :: utf8DecodeReplaceGo fuel rest

/-- UTF-8 decoding with replacement (see the module comment on the worker). -/
def utf8DecodeReplace (b : Bytes) : Str := utf8DecodeReplaceGo b.length b

/-- UTF-8 encoding of one codepoint. -/
def utf8EncodeChar (c : Nat) : Bytes :=
  if c < 128 then [c]
  else if c < 2048 then [192 + c / 64, 128 + c % 64]
  else if c < 65536 then [224 + c / 4096, 128 + (c / 64) % 64, 128 + c % 64]
  else [240 + c / 262144, 128 + (c / 4096) % 64, 128 + (c / 64) % 64, 128 + c % 64]

/-- Python `s.encode('utf-8')`. -/
def utf8Encode (s : Str) : Bytes := (s.map utf8EncodeChar).flatten

/-- Python `b.decode('latin1')`: each byte becomes the codepoint of the same
value; never fails, preserves length. -/
def latin1Decode (b : Bytes) : Str := b

/-- Value of a hex digit, `none` for a non-hex character. -/
def hexVal (c : Nat) : Option Nat :=
  if 48 ≤ c ∧ c ≤ 57 then some (c - 48)
  else if 65 ≤ c ∧ c ≤ 70 then some (c - 55)
  else if 97 ≤ c ∧ c ≤ 102 then some (c - 87)
  else none

/-- Tokenize a percent-encoded string: `Sum.inr` is a byte from a valid `%XX`
escape, `Sum.inl` a literal codepoint (invalid escapes stay literal). -/
def unquoteTokens : Str → List (Nat ⊕ Nat)
  | 37 :: h1 :: h2 :: rest =>
    match hexVal h1, hexVal h2 with
    | some a, some b => Sum.inr (a * 16 + b) :: unquoteTokens rest
    | _, _ => Sum.inl 37 :: unquoteTokens (h1 :: h2 :: rest)
  | c :: rest => Sum.inl c :: unquoteTokens rest
  | [] => []

/-- Rebuild a string from unquote tokens: each maximal run of escape bytes is
decoded as UTF-8 (with replacement), literals pass through.  `acc` holds the
current byte run reversed. -/
def tokensToStr : List (Nat ⊕ Nat) → Bytes → Str
  | [], acc => utf8DecodeReplace acc.reverse
  | Sum.inl c :: rest, acc => utf8DecodeReplace acc.reverse ++ c :: tokensToStr rest []
  | Sum.inr b :: rest, acc => tokensToStr rest (b :: acc)

/-- Model of `urllib.parse.unquote`: percent-decode, decoding each maximal
run of `%XX` escapes as UTF-8. -/
def pyUnquote (s : Str) : Str := tokensToStr (unquoteTokens s) []

/-- `class HTTPMethod(Enum)` from `main.py`: GET, POST, PUT. -/
inductive HTTPMethod where
  | GET
  | POST
  | PUT
deriving DecidableEq, Repr

/-- `class ContentEncoding(Enum)` from `main.py`: NONE = 'none',
GZIP = 'gzip'. -/
inductive ContentEncoding where
  | NONE
  | GZIP
deriving DecidableEq, Repr

/-- `HTTPMethod[name]`: enum lookup by member name; `none` models the
`KeyError` Python raises for an unknown name. -/
def methodLookup (tok : Str) : Option HTTPMethod :=
  if tok = S "GET" then some HTTPMethod.GET
  else if tok = S "POST" then some HTTPMethod.POST
  else if tok = S "PUT" then some HTTPMethod.PUT
  else none

/-- The accept-encoding loop of `HTTPRequest.from_raw_request` (lines 59-63):
split the header value on commas, strip and lower-case each token, keep the
tokens whose upper-cased form is a `ContentEncoding` member name
(`NONE` or `GZIP`), in order. -/
def parseEncodings (value : Str) : List ContentEncoding :=
  (splitOnSub [44] value).filterMap (fun e =>
    let encoding := asciiLower (pyStrip e)
    if asciiUpper encoding = S "NONE" then some ContentEncoding.NONE
    else if asciiUpper encoding = S "GZIP" then some ContentEncoding.GZIP
    else none)

/-- `class HTTPRequest`. -/
structure HTTPRequest where
  method : HTTPMethod
  target : Str
  headers : List (Str × Str)
  body : Str
  encodings : List ContentEncoding
deriving DecidableEq, Repr

/-- State of the line loop of `from_raw_request`. -/
structure ParseState where
  headers : List (Str × Str)
  body : Str
  encodings : List ContentEncoding
  inBody : Bool
deriving DecidableEq, Repr

/-- One iteration of the `for line in lines[1:]` loop of
`from_raw_request`: an empty line flips the body flag (and is never itself
appended); in the body region each line is appended followed by `\n`; in the
header region a line containing `": "` is split at its first occurrence, the
key lower-cased, the value stored verbatim (an `accept-encoding` key also
refreshes the encodings); other lines are skipped. -/
def processLine (st : ParseState) (line : Str) : ParseState :=
  if line = [] then { st with inBody := true }
  else if st.inBody then { st with body := st.body ++ line ++ [10] }
  else
    match splitFirstSub (S ": ") line with
    | some (key, value) =>
      let k := asciiLower key
      { st with
        headers := pyDictSet st.headers k value
        encodings := if k = S "accept-encoding" then parseEncodings value
                     else st.encodings }
    | none => st

/-- `HTTPRequest.from_raw_request`: split the raw text on CRLF; the first
line yields method (enum lookup, `KeyError` if unknown) and target
(`IndexError` if missing); remaining lines run through `processLine`; the
accumulated body is right-stripped of `\n`. -/
def from_raw_request (raw : Str) : Except PyError HTTPRequest :=
  let lines := splitOnSub crlf raw
  let request_line := pySplitWs (lines.headD [])
  match request_line.get? 0 with
  | none => .error .indexError
  | some mtok =>
    match methodLookup mtok with
    | none => .error .keyError
    | some method =>
      match request_line.get? 1 with
      | none => .error .indexError
      | some target =>
        let st := (lines.drop 1).foldl processLine ⟨[], [], [], false⟩
        .ok ⟨method, target, st.headers, pyRstripLF st.body, st.encodings⟩

/-- `HTTPRequest.set_content_encoding_header`: mutates the request's own
header dict when gzip was accepted (called once per request in
`handle_request`). -/
def set_content_encoding_header (r : HTTPRequest) : HTTPRequest :=
  if ContentEncoding.GZIP ∈ r.encodings then
    { r with headers := pyDictSet r.headers (S "Content-Encoding") (S "gzip") }
  else r

/-- `class HTTPResponse`. -/
structure HTTPResponse where
  status_code : Nat
  headers : List (Str × Str)
  body : Str
deriving DecidableEq, Repr

/-- `HTTPResponse.get_reason_phrase`. -/
def get_reason_phrase (status : Nat) : Str :=
  if status = 200 then S "OK"
  else if status = 201 then S "Created"
  else if status = 404 then S "Not Found"
  else if status = 500 then S "Internal Server Error"
  else S ""

/-- `HTTPResponse.to_raw_response`: status line, headers in insertion order,
blank line, then the body, all as one Python string. -/
def to_raw_response (resp : HTTPResponse) : Str :=
  let response_line :=
    S "HTTP/1.1 " ++ natToStr resp.status_code ++ [32]
      ++ get_reason_phrase resp.status_code ++ crlf
  let headers :=
    (resp.headers.map (fun kv => kv.1 ++ S ": " ++ kv.2 ++ crlf)).flatten
  response_line ++ headers ++ crlf ++ resp.body

/-- The bytes `handle_request` writes to the socket (line 132):
`response.to_raw_response().encode('utf-8')`. -/
def wireBytes (resp : HTTPResponse) : Bytes := utf8Encode (to_raw_response resp)

/-- `handle_root` (the compressor `g` models `gzip.compress`). -/
def handle_root (g : Bytes → Bytes) (r : HTTPRequest) : HTTPResponse :=
  let body := S "OK"
  let headers := [(S "Content-Type", S "text/plain")]
  let (headers, body) :=
    if ContentEncoding.GZIP ∈ r.encodings then
      (pyDictSet headers (S "Content-Encoding") (S "gzip"),
        latin1Decode (g (utf8Encode body)))
    else (headers, body)
  let headers := pyDictSet headers (S "Content-Length") (natToStr body.length)
  ⟨200, headers, body⟩

/-- `handle_echo`: the echoed string is `target.split('/echo/', 1)[-1]`,
percent-decoded; when gzip was accepted it is compressed and re-read as a
latin1 string, and `Content-Length` is computed from the final string. -/
def handle_echo (g : Bytes → Bytes) (r : HTTPRequest) : HTTPResponse :=
  let echoed := pyUnquote (splitAfterFirst (S "/echo/") r.target)
  let headers := [(S "Content-Type", S "text/plain")]
  let (headers, echoed) :=
    if ContentEncoding.GZIP ∈ r.encodings then
      (pyDictSet headers (S "Content-Encoding") (S "gzip"),
        latin1Decode (g (utf8Encode echoed)))
    else (headers, echoed)
  let headers := pyDictSet headers (S "Content-Length") (natToStr echoed.length)
  ⟨200, headers, echoed⟩

/-- `handle_user_agent`. -/
def handle_user_agent (g : Bytes → Bytes) (r : HTTPRequest) : HTTPResponse :=
  let user_agent := (pyDictGet r.headers (S "user-agent")).getD (S "No User-Agent found")
  let headers := [(S "Content-Type", S "text/plain")]
  let (headers, user_agent) :=
    if ContentEncoding.GZIP ∈ r.encodings then
      (pyDictSet headers (S "Content-Encoding") (S "gzip"),
        latin1Decode (g (utf8Encode user_agent)))
    else (headers, user_agent)
  let headers := pyDictSet headers (S "Content-Length") (natToStr user_agent.length)
  ⟨200, headers, user_agent⟩

/-- `handle_404`. -/
def handle_404 (g : Bytes → Bytes) (r : HTTPRequest) : HTTPResponse :=
  let body := S "404 Not Found"
  let headers := [(S "Content-Type", S "text/plain")]
  let (headers, body) :=
    if ContentEncoding.GZIP ∈ r.encodings then
      (pyDictSet headers (S "Content-Encoding") (S "gzip"),
        latin1Decode (g (utf8Encode body)))
    else (headers, body)
  let headers := pyDictSet headers (S "Content-Length") (natToStr body.length)
  ⟨404, headers, body⟩

/-- A Python value that is either a `str` or a `bytes` (the type of
`file_content` in `handle_files` depends on the branch taken). -/
inductive PyVal where
  | str (s : Str)
  | bytes (b : Bytes)
deriving DecidableEq, Repr

/-- Python `len` on either kind of value. -/
def pyLen : PyVal → Nat
  | .str s => s.length
  | .bytes b => b.length

/-- `x.decode('utf-8')`: on a `bytes` value, strict UTF-8 decoding; on a
`str` value Python raises `AttributeError` (str has no attribute decode). -/
def pyValDecodeUtf8 : PyVal → Except PyError Str
  | .str _ => .error .attributeError
  | .bytes b => utf8DecodeStrict b

/-- `handle_files`.  The filesystem is the external byte store: `fs name`
is the file's contents when `os.path.exists` holds for
`os.path.join(directory, name)` (the directory is fixed, so files are keyed
by name).  The POST branch's write is the external store's put; only its
response is modelled.  A `.error` result is an uncaught Python exception: no
response is produced.  A method other than GET or POST reaches no `return`,
so Python returns `None`, modelled as `.ok none`. -/
def handle_files (g : Bytes → Bytes) (fs : Str → Option Bytes)
    (r : HTTPRequest) : Except PyError (Option HTTPResponse) :=
  let filename := splitAfterFirst (S "/files/") r.target
  if r.method = HTTPMethod.GET then
    match fs filename with
    | some content =>
      let headers := [(S "Content-Type", S "application/octet-stream")]
      let (headers, file_content) :=
        if ContentEncoding.GZIP ∈ r.encodings then
          (pyDictSet headers (S "Content-Encoding") (S "gzip"),
            PyVal.str (latin1Decode (g content)))
        else (headers, PyVal.bytes content)
      let headers := pyDictSet headers (S "Content-Length") (natToStr (pyLen file_content))
      match pyValDecodeUtf8 file_content with
      | .ok body => .ok (some ⟨200, headers, body⟩)
      | .error e => .error e
    | none => .ok (some (handle_404 g r))
  else if r.method = HTTPMethod.POST then
    .ok (some ⟨201, [(S "Content-Type", S "application/octet-stream"),
                     (S "Content-Length", natToStr 0)], []⟩)
  else .ok none

/-- The dispatch of `handle_request` (lines 128-129) together with
`handle_dynamic_route`: exact dict lookup on the query-stripped target, then
dynamic prefix matching on the raw target. -/
def route (g : Bytes → Bytes) (fs : Str → Option Bytes)
    (r : HTTPRequest) : Except PyError (Option HTTPResponse) :=
  let target_path := (splitOnSub [63] r.target).headD []
  if target_path = S "/" then .ok (some (handle_root g r))
  else if target_path = S "/echo" then .ok (some (handle_echo g r))
  else if target_path = S "/user-agent" then .ok (some (handle_user_agent g r))
  else if target_path = S "/files" then handle_files g fs r
  else if pyStartswith (S "/echo/") r.target then .ok (some (handle_echo g r))
  else if pyStartswith (S "/files/") r.target then handle_files g fs r
  else .ok (some (handle_404 g r))

/-- C1: for a decoded request with target `/echo/abc` whose accepted
encodings contain gzip, the echo handler returns status 200 with a
`Content-Encoding: gzip` header, a body equal to the gzip compression of
`abc` (read back byte-for-byte as a latin1 string), and a `Content-Length`
equal to the byte length of the compressed body.  Quantified over every
compressor `g` standing for `gzip.compress`. -/
theorem echo_gzip_response (g : Bytes → Bytes) (r : HTTPRequest)
    (hT : r.target = S "/echo/abc")
    (hE : ContentEncoding.GZIP ∈ r.encodings) :
    (handle_echo g r).status_code = 200 ∧
    pyDictGet (handle_echo g r).headers (S "Content-Encoding") = some (S "gzip") ∧
    (handle_echo g r).body = latin1Decode (g (utf8Encode (S "abc"))) ∧
    pyDictGet (handle_echo g r).headers (S "Content-Length")
      = some (natToStr (g (utf8Encode (S "abc"))).length) := by
  have key : handle_echo g r =
      ⟨200,
        pyDictSet
          (pyDictSet [(S "Content-Type", S "text/plain")] (S "Content-Encoding") (S "gzip"))
          (S "Content-Length")
          (natToStr (latin1Decode (g (utf8Encode (S "abc")))).length),
        latin1Decode (g (utf8Encode (S "abc")))⟩ := by
    simp only [handle_echo, hT]
    rw [if_pos hE]
    rfl
  rw [key]
  exact ⟨rfl, rfl, rfl, rfl⟩

/-- C1 witness: the theorem applied at a concrete compressor and request. -/
theorem echo_gzip_response_witness :
    (handle_echo (fun b => b ++ b)
        ⟨HTTPMethod.GET, S "/echo/abc", [], [], [ContentEncoding.GZIP]⟩).status_code = 200 ∧
    pyDictGet (handle_echo (fun b => b ++ b)
        ⟨HTTPMethod.GET, S "/echo/abc", [], [], [ContentEncoding.GZIP]⟩).headers
      (S "Content-Encoding") = some (S "gzip") ∧
    (handle_echo (fun b => b ++ b)
        ⟨HTTPMethod.GET, S "/echo/abc", [], [], [ContentEncoding.GZIP]⟩).body
      = latin1Decode ((fun b => b ++ b) (utf8Encode (S "abc"))) ∧
    pyDictGet (handle_echo (fun b => b ++ b)
        ⟨HTTPMethod.GET, S "/echo/abc", [], [], [ContentEncoding.GZIP]⟩).headers
      (S "Content-Length")
      = some (natToStr ((fun b => b ++ b) (utf8Encode (S "abc"))).length) :=
  echo_gzip_response (fun b => b ++ b)
    ⟨HTTPMethod.GET, S "/echo/abc", [], [], [ContentEncoding.GZIP]⟩ rfl (by decide)

/-- C6: when the accepted encodings do not contain gzip, each handler's
response carries no `Content-Encoding` header and its body is the
uncompressed value the handler computed — root, echo, user-agent and 404
unconditionally; the file handler's GET branch when the file exists and its
bytes decode as UTF-8 (its response headers are only Content-Type and
Content-Length), and its POST branch whose fixed headers never include
`Content-Encoding`. -/
theorem identity_no_content_encoding (g : Bytes → Bytes) (r : HTTPRequest)
    (hE : ContentEncoding.GZIP ∉ r.encodings) :
    pyDictGet (handle_root g r).headers (S "Content-Encoding") = none ∧
    (handle_root g r).body = S "OK" ∧
    pyDictGet (handle_echo g r).headers (S "Content-Encoding") = none ∧
    (handle_echo g r).body = pyUnquote (splitAfterFirst (S "/echo/") r.target) ∧
    pyDictGet (handle_user_agent g r).headers (S "Content-Encoding") = none ∧
    (handle_user_agent g r).body
      = (pyDictGet r.headers (S "user-agent")).getD (S "No User-Agent found") ∧
    pyDictGet (handle_404 g r).headers (S "Content-Encoding") = none ∧
    (handle_404 g r).body = S "404 Not Found" ∧
    (∀ fs content body2, r.method = HTTPMethod.GET →
      fs (splitAfterFirst (S "/files/") r.target) = some content →
      utf8DecodeStrict content = Except.ok body2 →
      handle_files g fs r = .ok (some ⟨200,
        pyDictSet [(S "Content-Type", S "application/octet-stream")]
          (S "Content-Length") (natToStr content.length), body2⟩) ∧
      pyDictGet (pyDictSet [(S "Content-Type", S "application/octet-stream")]
          (S "Content-Length") (natToStr content.length)) (S "Content-Encoding") = none) ∧
    (∀ fs, r.method = HTTPMethod.POST →
      handle_files g fs r = .ok (some ⟨201,
        [(S "Content-Type", S "application/octet-stream"),
          (S "Content-Length", natToStr 0)], []⟩) ∧
      pyDictGet [(S "Content-Type", S "application/octet-stream"),
          (S "Content-Length", natToStr 0)] (S "Content-Encoding") = none) := by
  have hroot : handle_root g r =
      ⟨200, pyDictSet [(S "Content-Type", S "text/plain")] (S "Content-Length")
          (natToStr (S "OK").length), S "OK"⟩ := by
    simp only [handle_root]; rw [if_neg hE]
  have hecho : handle_echo g r =
      ⟨200, pyDictSet [(S "Content-Type", S "text/plain")] (S "Content-Length")
          (natToStr (pyUnquote (splitAfterFirst (S "/echo/") r.target)).length),
        pyUnquote (splitAfterFirst (S "/echo/") r.target)⟩ := by
    simp only [handle_echo]; rw [if_neg hE]
  have hua : handle_user_agent g r =
      ⟨200, pyDictSet [(S "Content-Type", S "text/plain")] (S "Content-Length")
          (natToStr ((pyDictGet r.headers (S "user-agent")).getD
            (S "No User-Agent found")).length),
        (pyDictGet r.headers (S "user-agent")).getD (S "No User-Agent found")⟩ := by
    simp only [handle_user_agent]; rw [if_neg hE]
  have h404 : handle_404 g r =
      ⟨404, pyDictSet [(S "Content-Type", S "text/plain")] (S "Content-Length")
          (natToStr (S "404 Not Found").length), S "404 Not Found"⟩ := by
    simp only [handle_404]; rw [if_neg hE]
  rw [hroot, hecho, hua, h404]
  refine ⟨rfl, rfl, rfl, rfl, rfl, rfl, rfl, rfl, ?_, ?_⟩
  · intro fs content body2 hg hf hd
    have hfg : handle_files g fs r = .ok (some ⟨200,
        pyDictSet [(S "Content-Type", S "application/octet-stream")]
          (S "Content-Length") (natToStr content.length), body2⟩) := by
      simp [handle_files, hg, hf, hE, pyValDecodeUtf8, pyLen, hd]
    exact ⟨hfg, rfl⟩
  · intro fs hp
    have hfp : handle_files g fs r = .ok (some ⟨201,
        [(S "Content-Type", S "application/octet-stream"),
          (S "Content-Length", natToStr 0)], []⟩) := by
      simp only [handle_files]
      rw [if_neg (show ¬ (r.method = HTTPMethod.GET) by simp [hp]), if_pos hp]
    exact ⟨hfp, rfl⟩

/-- C6 witness: the theorem applied at a concrete request whose accepted
encodings are `[none]` (no gzip). -/
theorem identity_no_content_encoding_witness :
    pyDictGet (handle_root (fun b => b)
        ⟨HTTPMethod.GET, S "/echo/x", [], [], [ContentEncoding.NONE]⟩).headers
      (S "Content-Encoding") = none ∧
    (handle_root (fun b => b)
        ⟨HTTPMethod.GET, S "/echo/x", [], [], [ContentEncoding.NONE]⟩).body = S "OK" ∧
    pyDictGet (handle_echo (fun b => b)
        ⟨HTTPMethod.GET, S "/echo/x", [], [], [ContentEncoding.NONE]⟩).headers
      (S "Content-Encoding") = none ∧
    (handle_echo (fun b => b)
        ⟨HTTPMethod.GET, S "/echo/x", [], [], [ContentEncoding.NONE]⟩).body
      = pyUnquote (splitAfterFirst (S "/echo/") (S "/echo/x")) ∧
    pyDictGet (handle_user_agent (fun b => b)
        ⟨HTTPMethod.GET, S "/echo/x", [], [], [ContentEncoding.NONE]⟩).headers
      (S "Content-Encoding") = none ∧
    (handle_user_agent (fun b => b)
        ⟨HTTPMethod.GET, S "/echo/x", [], [], [ContentEncoding.NONE]⟩).body
      = (pyDictGet ([] : List (Str × Str)) (S "user-agent")).getD (S "No User-Agent found") ∧
    pyDictGet (handle_404 (fun b => b)
        ⟨HTTPMethod.GET, S "/echo/x", [], [], [ContentEncoding.NONE]⟩).headers
      (S "Content-Encoding") = none ∧
    (handle_404 (fun b => b)
        ⟨HTTPMethod.GET, S "/echo/x", [], [], [ContentEncoding.NONE]⟩).body
      = S "404 Not Found" ∧
    handle_files (fun b => b) (fun _ => some [104, 105])
        ⟨HTTPMethod.GET, S "/echo/x", [], [], [ContentEncoding.NONE]⟩
      = .ok (some ⟨200,
          pyDictSet [(S "Content-Type", S "application/octet-stream")]
            (S "Content-Length") (natToStr ([104, 105] : Bytes).length), S "hi"⟩) := by
  obtain ⟨a1, a2, a3, a4, a5, a6, a7, a8, a9, a10⟩ :=
    identity_no_content_encoding (fun b => b)
      ⟨HTTPMethod.GET, S "/echo/x", [], [], [ContentEncoding.NONE]⟩ (by decide)
  exact ⟨a1, a2, a3, a4, a5, a6, a7, a8,
    (a9 (fun _ => some [104, 105]) [104, 105] (S "hi") rfl rfl rfl).1⟩

/-- C9: a GET of an existing file with gzip among the accepted encodings
makes `handle_files` raise `AttributeError` (line 182 calls
`.decode('utf-8')` on the `str` produced by the gzip branch), so no response
is produced. -/
theorem files_gzip_get_no_response (g : Bytes → Bytes) (fs : Str → Option Bytes)
    (r : HTTPRequest) (content : Bytes)
    (hm : r.method = HTTPMethod.GET)
    (hf : fs (splitAfterFirst (S "/files/") r.target) = some content)
    (hE : ContentEncoding.GZIP ∈ r.encodings) :
    handle_files g fs r = .error PyError.attributeError := by
  simp [handle_files, hm, hf, if_pos hE, pyValDecodeUtf8]

/-- C9 witness: the theorem applied at a concrete compressor, filesystem and
request. -/
theorem files_gzip_get_no_response_witness :
    handle_files (fun b => b) (fun _ => some [104])
      ⟨HTTPMethod.GET, S "/files/a.txt", [], [], [ContentEncoding.GZIP]⟩
      = .error PyError.attributeError :=
  files_gzip_get_no_response (fun b => b) (fun _ => some [104])
    ⟨HTTPMethod.GET, S "/files/a.txt", [], [], [ContentEncoding.GZIP]⟩ [104]
    rfl rfl (by decide)

/-- C2 (code bug): serialization corrupts compressed bodies.  With a
compressor whose output is the gzip magic `[0x1f, 0x8b]` (the first two bytes
of every real gzip stream), the handler's body holds exactly those bytes as a
latin1 string, but the bytes `handle_request` writes after the blank line are
the UTF-8 re-encoding `[0x1f, 0xc2, 0x8b]` — not the compressor's output. -/
theorem wire_corrupts_gzip_body :
    (handle_echo (fun _ => [31, 139])
        ⟨HTTPMethod.GET, S "/echo/abc", [(S "accept-encoding", S "gzip")], [],
          [ContentEncoding.GZIP]⟩).body = latin1Decode [31, 139] ∧
    splitAfterFirst (crlf ++ crlf)
        (wireBytes (handle_echo (fun _ => [31, 139])
          ⟨HTTPMethod.GET, S "/echo/abc", [(S "accept-encoding", S "gzip")], [],
            [ContentEncoding.GZIP]⟩))
      = [31, 194, 139] ∧
    ([31, 194, 139] : Bytes) ≠ [31, 139] :=
  ⟨rfl, rfl, by decide⟩

/-- C3 fails as stated: for target `/echo/a?b=1` (which begins with
`/echo/`), the handler echoes the raw target remainder including the query
string, while the percent-decoded remainder of the query-stripped path (the
path as `handle_request` line 128 computes it) is `a`. -/
theorem echo_query_string_cex :
    (handle_echo (fun b => b) ⟨HTTPMethod.GET, S "/echo/a?b=1", [], [], []⟩).body
      = S "a?b=1" ∧
    pyUnquote (splitAfterFirst (S "/echo/")
        ((splitOnSub [63] (S "/echo/a?b=1")).headD [])) = S "a" ∧
    S "a?b=1" ≠ S "a" :=
  ⟨rfl, rfl, by decide⟩

/-- C3 amended: for every request whose target begins with `/echo/` and whose
accepted encodings do not contain gzip, the echo handler returns 200 with
body the percent-decoded remainder of the raw target (query string included)
after the first `/echo/`, and a `Content-Length` equal to that body's
length. -/
theorem echo_identity_response (g : Bytes → Bytes) (r : HTTPRequest)
    (hT : pyStartswith (S "/echo/") r.target = true)
    (hE : ContentEncoding.GZIP ∉ r.encodings) :
    (handle_echo g r).status_code = 200 ∧
    (handle_echo g r).body = pyUnquote (splitAfterFirst (S "/echo/") r.target) ∧
    pyDictGet (handle_echo g r).headers (S "Content-Length")
      = some (natToStr (pyUnquote (splitAfterFirst (S "/echo/") r.target)).length) := by
  have key : handle_echo g r =
      ⟨200, pyDictSet [(S "Content-Type", S "text/plain")] (S "Content-Length")
          (natToStr (pyUnquote (splitAfterFirst (S "/echo/") r.target)).length),
        pyUnquote (splitAfterFirst (S "/echo/") r.target)⟩ := by
    simp only [handle_echo]; rw [if_neg hE]
  rw [key]
  exact ⟨rfl, rfl, rfl⟩

/-- C3 witness: the amended theorem applied at `GET /echo/hello%20world`,
whose body evaluates to `hello world` with `Content-Length: 11`. -/
theorem echo_identity_response_witness :
    (handle_echo (fun b => b)
        ⟨HTTPMethod.GET, S "/echo/hello%20world", [], [], []⟩).status_code = 200 ∧
    (handle_echo (fun b => b)
        ⟨HTTPMethod.GET, S "/echo/hello%20world", [], [], []⟩).body = S "hello world" ∧
    pyDictGet (handle_echo (fun b => b)
        ⟨HTTPMethod.GET, S "/echo/hello%20world", [], [], []⟩).headers
      (S "Content-Length") = some (S "11") := by
  have h := echo_identity_response (fun b => b)
    ⟨HTTPMethod.GET, S "/echo/hello%20world", [], [], []⟩ rfl (by decide)
  exact ⟨h.1, by rw [h.2.1]; rfl, by rw [h.2.2]; rfl⟩

/-- C5 fails as stated: DELETE and PATCH are not recognized methods of the
code's `HTTPMethod` enum, so decoding a request whose method token is DELETE
or PATCH fails on the method check (Python raises `KeyError`). -/
theorem method_enum_cex :
    from_raw_request (S "DELETE /x HTTP/1.1\r\n\r\n") = .error PyError.keyError ∧
    from_raw_request (S "PATCH /x HTTP/1.1\r\n\r\n") = .error PyError.keyError :=
  ⟨rfl, rfl⟩

/-- C5 amended: the recognized methods are exactly GET, POST and PUT; a
first-line method token outside these makes decoding fail with the
enum-lookup error (`KeyError`, uncaught, rather than a handled fall-through),
and a token among the three never makes decoding fail on the method check. -/
theorem method_lookup_amended :
    (∀ raw tok, (pySplitWs ((splitOnSub crlf raw).headD [])).get? 0 = some tok →
      methodLookup tok = none →
      from_raw_request raw = .error PyError.keyError) ∧
    (∀ raw tok m, (pySplitWs ((splitOnSub crlf raw).headD [])).get? 0 = some tok →
      methodLookup tok = some m →
      from_raw_request raw ≠ .error PyError.keyError) ∧
    methodLookup (S "GET") = some HTTPMethod.GET ∧
    methodLookup (S "POST") = some HTTPMethod.POST ∧
    methodLookup (S "PUT") = some HTTPMethod.PUT ∧
    methodLookup (S "DELETE") = none ∧
    methodLookup (S "PATCH") = none := by
  refine ⟨?_, ?_, rfl, rfl, rfl, rfl, rfl⟩
  · intro raw tok h1 h2
    simp only [from_raw_request, h1, h2]
  · intro raw tok m h1 h2
    simp only [from_raw_request, h1, h2]
    cases hg : (pySplitWs ((splitOnSub crlf raw).headD [])).get? 1 <;> simp

/-- C5 witness: the amended theorem applied at concrete raw requests with an
unknown method token and with a recognized one. -/
theorem method_lookup_amended_witness :
    from_raw_request (S "FOO / HTTP/1.1\r\n\r\n") = .error PyError.keyError ∧
    from_raw_request (S "GET / HTTP/1.1\r\n\r\n") ≠ .error PyError.keyError :=
  ⟨method_lookup_amended.1 (S "FOO / HTTP/1.1\r\n\r\n") (S "FOO") rfl rfl,
    method_lookup_amended.2.1 (S "GET / HTTP/1.1\r\n\r\n") (S "GET") HTTPMethod.GET
      rfl rfl⟩

/-- C8 fails as stated: the decoder stores header values verbatim after the
first `": "` — it does not trim whitespace.  The line `Host:  ex ` yields the
value `" ex "`, not the trimmed `"ex"`. -/
theorem header_value_not_trimmed_cex :
    from_raw_request (S "GET / HTTP/1.1\r\nHost:  ex \r\n\r\n")
      = .ok ⟨HTTPMethod.GET, S "/", [(S "host", S " ex ")], [], []⟩ ∧
    pyStrip (S " ex ") = S "ex" ∧
    S " ex " ≠ S "ex" :=
  ⟨rfl, rfl, by decide⟩

/-- C8 amended: in the header region (before the first empty line), a
non-empty line containing `": "` is split at its first occurrence, the key
stored lower-cased and the value stored verbatim (not trimmed), with the
encodings refreshed when the key is `accept-encoding`; a line without the
separator is silently skipped and decoding does not fail. -/
theorem header_line_processing (st : ParseState) (line : Str)
    (h1 : st.inBody = false) (h2 : line ≠ []) :
    (∀ key value, splitFirstSub (S ": ") line = some (key, value) →
      processLine st line = { st with
        headers := pyDictSet st.headers (asciiLower key) value,
        encodings := if asciiLower key = S "accept-encoding" then parseEncodings value
                     else st.encodings }) ∧
    (splitFirstSub (S ": ") line = none → processLine st line = st) := by
  constructor
  · intro key value hs
    simp only [processLine, h1, if_neg h2, hs, Bool.false_eq_true, if_false]
  · intro hs
    simp only [processLine, h1, if_neg h2, hs, Bool.false_eq_true, if_false]

/-- C8 witness: the amended theorem applied at a concrete state and header
line, giving the lower-cased key and verbatim value. -/
theorem header_line_processing_witness :
    processLine ⟨[], [], [], false⟩ (S "User-Agent: curl/7.1")
      = ⟨[(S "user-agent", S "curl/7.1")], [], [], false⟩ := by
  rw [(header_line_processing ⟨[], [], [], false⟩ (S "User-Agent: curl/7.1") rfl
      (by decide)).1 (S "User-Agent") (S "curl/7.1") rfl]
  rfl

/-- Spec-side table of the recognized encoding names (amended to the code's
`ContentEncoding` member names, `none` and `gzip`). -/
def recognizedEncodingNames : List (Str × ContentEncoding) :=
  [(S "none", ContentEncoding.NONE), (S "gzip", ContentEncoding.GZIP)]

/-- C4's amended decoding, written from the spec's words: split the header
value on commas, trim and lower-case each token, keep exactly the tokens
that name a recognized encoding (looked up in `recognizedEncodingNames`),
preserving the header's left-to-right order. -/
def specParseEncodings (value : Str) : List ContentEncoding :=
  (splitOnSub [44] value).filterMap (fun tok =>
    (recognizedEncodingNames.find?
        (fun p => decide (p.1 = asciiLower (pyStrip tok)))).map Prod.snd)

theorem upperChar_lowerChar_eq (c u : Nat) (h1 : 65 ≤ u) (h2 : u ≤ 90) :
    upperChar (lowerChar c) = u ↔ lowerChar c = u + 32 := by
  unfold upperChar lowerChar
  split_ifs <;> omega

theorem asciiUpper_asciiLower_eq (z u : Str) (hu : ∀ c ∈ u, 65 ≤ c ∧ c ≤ 90) :
    asciiUpper (asciiLower z) = u ↔ asciiLower z = u.map (fun c => c + 32) := by
  induction z generalizing u with
  | nil =>
    cases u with
    | nil => simp [asciiUpper, asciiLower]
    | cons a u2 => simp [asciiUpper, asciiLower]
  | cons c z2 ih =>
    cases u with
    | nil => simp [asciiUpper, asciiLower]
    | cons a u2 =>
      have ha := hu a (List.mem_cons_self a u2)
      have htail : ∀ x ∈ u2, 65 ≤ x ∧ x ≤ 90 :=
        fun x hx => hu x (List.mem_cons_of_mem a hx)
      have hhead := upperChar_lowerChar_eq c a ha.1 ha.2
      have hih := ih u2 htail
      simp only [asciiUpper, asciiLower, List.map_cons, List.cons.injEq] at hih ⊢
      exact and_congr hhead hih

theorem upper_eq_NONE (z : Str) :
    (asciiUpper (asciiLower z) = S "NONE") = (asciiLower z = S "none") := by
  have h := asciiUpper_asciiLower_eq z (S "NONE") (by decide)
  have h2 : (S "NONE").map (fun c => c + 32) = S "none" := by decide
  rw [h2] at h
  exact propext h

theorem upper_eq_GZIP (z : Str) :
    (asciiUpper (asciiLower z) = S "GZIP") = (asciiLower z = S "gzip") := by
  have h := asciiUpper_asciiLower_eq z (S "GZIP") (by decide)
  have h2 : (S "GZIP").map (fun c => c + 32) = S "gzip" := by decide
  rw [h2] at h
  exact propext h

/-- C4 fails as stated: the recognized encodings are the code's enum member
names `none` and `gzip`, not `identity` and `gzip` — a header value whose
tokens are `identity` and `gzip` keeps only gzip, the lone token `identity`
is dropped entirely, and the token `none` is kept. -/
theorem accept_encoding_tokens_cex :
    from_raw_request (S "GET / HTTP/1.1\r\nAccept-Encoding: identity, gzip\r\n\r\n")
      = .ok ⟨HTTPMethod.GET, S "/",
          [(S "accept-encoding", S "identity, gzip")], [], [ContentEncoding.GZIP]⟩ ∧
    parseEncodings (S "identity") = [] ∧
    parseEncodings (S "none") = [ContentEncoding.NONE] :=
  ⟨rfl, rfl, rfl⟩

/-- C4 amended: for every `Accept-Encoding` header value, the decoder splits
the value on commas, trims and lower-cases each token, and keeps exactly the
tokens naming a recognized encoding — the recognized encodings being the
code's `none` and `gzip` — in the header's left-to-right order, silently
dropping every other token: the decoding loop agrees with the spec-shaped
table lookup `specParseEncodings`. -/
theorem accept_encoding_parse (value : Str) :
    parseEncodings value = specParseEncodings value := by
  unfold parseEncodings specParseEncodings
  apply List.filterMap_congr
  intro tok _
  simp only [upper_eq_NONE, upper_eq_GZIP]
  by_cases h1 : asciiLower (pyStrip tok) = S "none"
  · simp [recognizedEncodingNames, List.find?, h1]
  · by_cases h2 : asciiLower (pyStrip tok) = S "gzip"
    · have h1s : ¬ (S "none" = asciiLower (pyStrip tok)) := fun h => h1 h.symm
      simp [recognizedEncodingNames, List.find?, h1, h2, h1s]
      decide
    · have h1s : ¬ (S "none" = asciiLower (pyStrip tok)) := fun h => h1 h.symm
      have h2s : ¬ (S "gzip" = asciiLower (pyStrip tok)) := fun h => h2 h.symm
      simp [recognizedEncodingNames, List.find?, h1, h2, h1s, h2s]

/-- C4 witness: the refinement applied at a concrete header value with
mixed case, whitespace and an unrecognized token. -/
theorem accept_encoding_parse_witness :
    parseEncodings (S " NoNe ,identity, GZIP")
      = specParseEncodings (S " NoNe ,identity, GZIP") :=
  accept_encoding_parse (S " NoNe ,identity, GZIP")

/-- What the decoder actually produces as the body: the non-empty
CRLF-separated segments after the first empty segment (the first blank
line), each emitted followed by `\n`, with trailing `\n` characters then
stripped. -/
def amendedBody (raw : Str) : Str :=
  pyRstripLF (List.flatten (List.map (fun l => l ++ [10])
    (List.filter (fun l => !l.isEmpty)
      (List.drop 1 (List.dropWhile (fun l => !l.isEmpty)
        (List.drop 1 (splitOnSub crlf raw)))))))

theorem foldl_processLine_inBody (ls : List Str) (st : ParseState)
    (h : st.inBody = true) :
    ls.foldl processLine st
      = { st with body := st.body
          ++ List.flatten (List.map (fun l => l ++ [10])
              (List.filter (fun l => !l.isEmpty) ls)) } := by
  induction ls generalizing st with
  | nil => simp
  | cons l ls ih =>
    by_cases hl : l = []
    · subst hl
      have hpl : processLine st [] = st := by
        obtain ⟨a, b, c, d⟩ := st
        simp only [ParseState.inBody] at h
        subst h
        simp [processLine]
      rw [List.foldl_cons, hpl, ih st h]
      simp
    · have hpl : processLine st l = { st with body := st.body ++ l ++ [10] } := by
        simp [processLine, hl, h]
      rw [List.foldl_cons, hpl, ih { st with body := st.body ++ l ++ [10] } h]
      have hne : l.isEmpty = false := by
        cases l with
        | nil => exact absurd rfl hl
        | cons x xs => rfl
      simp [hne, List.append_assoc]

theorem foldl_processLine_headerRegion (ls : List Str) (st : ParseState)
    (h : st.inBody = false) :
    (ls.foldl processLine st).body
      = st.body ++ List.flatten (List.map (fun l => l ++ [10])
          (List.filter (fun l => !l.isEmpty)
            (List.drop 1 (List.dropWhile (fun l => !l.isEmpty) ls)))) := by
  induction ls generalizing st with
  | nil => simp
  | cons l ls ih =>
    by_cases hl : l = []
    · subst hl
      have hpl : processLine st [] = { st with inBody := true } := by
        simp [processLine]
      rw [List.foldl_cons, hpl,
        foldl_processLine_inBody ls { st with inBody := true } rfl]
      simp
    · have hne : l.isEmpty = false := by
        cases l with
        | nil => exact absurd rfl hl
        | cons x xs => rfl
      have hbody : (processLine st l).body = st.body ∧ (processLine st l).inBody = false := by
        cases hs : splitFirstSub (S ": ") l <;>
          simp [processLine, hl, h, hs]
      rw [List.foldl_cons, ih _ hbody.2, hbody.1]
      simp [hne]

/-- C7 fails as stated: for the raw request `GET / HTTP/1.1\r\n\r\nab\r\ncd`,
the byte sequence after the first blank line is `ab\r\ncd`, but the decoded
body is `ab\ncd` — the CRLF inside the body is rewritten to a lone `\n`. -/
theorem body_not_verbatim_cex :
    from_raw_request (S "GET / HTTP/1.1\r\n\r\nab\r\ncd")
      = .ok ⟨HTTPMethod.GET, S "/", [], S "ab\ncd", []⟩ ∧
    splitAfterFirst (crlf ++ crlf) (S "GET / HTTP/1.1\r\n\r\nab\r\ncd") = S "ab\r\ncd" ∧
    S "ab\ncd" ≠ S "ab\r\ncd" :=
  ⟨rfl, rfl, by decide⟩

/-- C7 amended: for every raw request buffer that decodes successfully, the
decoded body equals the non-empty CRLF-separated segments after the first
empty line, joined by appending `\n` to each, with trailing `\n` stripped
(`amendedBody`) — not the verbatim byte suffix after the first blank line. -/
theorem request_body_amended (raw : Str) (req : HTTPRequest)
    (h : from_raw_request raw = .ok req) :
    req.body = amendedBody raw := by
  simp only [from_raw_request] at h
  split at h
  · exact absurd h (by simp)
  · split at h
    · exact absurd h (by simp)
    · split at h
      · exact absurd h (by simp)
      · injection h with h2
        rw [← h2]
        show pyRstripLF
            (((splitOnSub crlf raw).drop 1).foldl processLine ⟨[], [], [], false⟩).body
          = amendedBody raw
        rw [foldl_processLine_headerRegion _ _ rfl]
        rfl

/-- C7 witness: the amended theorem applied at a concrete raw request with a
body. -/
theorem request_body_amended_witness :
    (⟨HTTPMethod.POST, S "/files/f", [], S "hello", []⟩ : HTTPRequest).body
      = amendedBody (S "POST /files/f HTTP/1.1\r\n\r\nhello") :=
  request_body_amended (S "POST /files/f HTTP/1.1\r\n\r\nhello")
    ⟨HTTPMethod.POST, S "/files/f", [], S "hello", []⟩ rfl

theorem splitOnSubGo_single_headD (c : Nat) (fuel : Nat) (l acc : Str)
    (hf : l.length ≤ fuel) :
    (splitOnSubGo [c] fuel l acc).headD []
      = acc.reverse ++ l.takeWhile (fun x => !(x == c)) := by
  induction fuel generalizing l acc with
  | zero =>
    cases l with
    | nil => simp [splitOnSubGo]
    | cons x xs => simp at hf
  | succ fuel ih =>
    cases l with
    | nil => simp [splitOnSubGo]
    | cons x xs =>
      simp only [splitOnSubGo, List.isPrefixOf, List.isPrefixOf_nil_left, Bool.and_true,
        List.takeWhile_cons]
      by_cases hx : c = x
      · subst hx
        simp
      · have hxs : xs.length ≤ fuel := by
          simpa using Nat.lt_succ_iff.mp (Nat.lt_of_lt_of_le (by simp) hf)
        have hbeq : (c == x) = false := by
          simp [hx]
        have hxc : ¬ x = c := fun h => hx h.symm
        have hbeq2 : (x == c) = false := by
          simp [hxc]
        simp only [hbeq, hbeq2, Bool.false_eq_true, if_false, Bool.not_false, if_true,
          ih xs (x :: acc) hxs]
        simp

theorem splitOnSub_single_headD (c : Nat) (l : Str) :
    (splitOnSub [c] l).headD [] = l.takeWhile (fun x => !(x == c)) := by
  have h := splitOnSubGo_single_headD c l.length l [] (Nat.le_refl _)
  simpa using h

/-- C10: a decoded PUT request routed to the `/files` handler matches
neither the GET nor the POST branch of `handle_files`, which therefore
returns `None`: dispatch produces no response at all, so the serialization
step in `handle_request` has no response to encode. -/
theorem files_put_no_response (g : Bytes → Bytes) (fs : Str → Option Bytes)
    (r : HTTPRequest)
    (hm : r.method = HTTPMethod.PUT)
    (ht : pyStartswith (S "/files/") r.target = true) :
    route g fs r = .ok none ∧ handle_files g fs r = .ok none := by
  have hfiles : handle_files g fs r = .ok none := by
    simp [handle_files, hm]
  refine ⟨?_, hfiles⟩
  obtain ⟨rest, hT⟩ := List.isPrefixOf_iff_prefix.mp ht
  have htp : (splitOnSub [63] r.target).headD []
      = 47 :: 102 :: 105 :: 108 :: 101 :: 115 :: 47
          :: List.takeWhile (fun x => !(x == 63)) rest := by
    rw [splitOnSub_single_headD, ← hT]
    show List.takeWhile (fun x => !(x == 63))
        (47 :: 102 :: 105 :: 108 :: 101 :: 115 :: 47 :: rest) = _
    simp [List.takeWhile_cons]
  have h1 : (47 :: 102 :: 105 :: 108 :: 101 :: 115 :: 47
      :: List.takeWhile (fun x => !(x == 63)) rest) ≠ S "/" := by
    show _ ≠ ([47] : Str)
    simp
  have h2 : (47 :: 102 :: 105 :: 108 :: 101 :: 115 :: 47
      :: List.takeWhile (fun x => !(x == 63)) rest) ≠ S "/echo" := by
    show _ ≠ ([47, 101, 99, 104, 111] : Str)
    simp
  have h3 : (47 :: 102 :: 105 :: 108 :: 101 :: 115 :: 47
      :: List.takeWhile (fun x => !(x == 63)) rest) ≠ S "/user-agent" := by
    show _ ≠ ([47, 117, 115, 101, 114, 45, 97, 103, 101, 110, 116] : Str)
    simp
  have h4 : (47 :: 102 :: 105 :: 108 :: 101 :: 115 :: 47
      :: List.takeWhile (fun x => !(x == 63)) rest) ≠ S "/files" := by
    show _ ≠ ([47, 102, 105, 108, 101, 115] : Str)
    simp
  have hecho : ¬ (pyStartswith (S "/echo/") r.target = true) := by
    rw [← hT]
    show ¬ (List.isPrefixOf (47 :: 101 :: 99 :: 104 :: 111 :: 47 :: [])
      (47 :: 102 :: 105 :: 108 :: 101 :: 115 :: 47 :: rest) = true)
    simp [List.isPrefixOf]
  simp only [route, htp]
  rw [if_neg h1, if_neg h2, if_neg h3, if_neg h4, if_neg hecho, if_pos ht]
  exact hfiles

/-- C10 witness: the theorem applied at a concrete compressor, filesystem
and PUT request. -/
theorem files_put_no_response_witness :
    route (fun b => b) (fun _ => none)
      ⟨HTTPMethod.PUT, S "/files/a.txt", [], [], []⟩ = .ok none ∧
    handle_files (fun b => b) (fun _ => none)
      ⟨HTTPMethod.PUT, S "/files/a.txt", [], [], []⟩ = .ok none :=
  files_put_no_response (fun b => b) (fun _ => none)
    ⟨HTTPMethod.PUT, S "/files/a.txt", [], [], []⟩ rfl rfl

end HttpServer
